import Mathlib

/-!
# dogwatch: the DogNZB watchlist client

A shallow embedding of `pkg/dognzb/dognzb.go` (the client: `buildURL`, `get`,
`List`, `Add`, `Remove`) and of `cmd/root.go` (`CheckAPI`).

Conventions of the embedding.

* A Go `string` is a sequence of bytes: `Str = List (Fin 256)`.
* A Go `error` is identified with its message (`GoError`); the nil error is
  `none`.
* The injected `Getter` is a state transformer on an arbitrary transport
  state; `recording` wraps a getter so that the state logs every URL asked for.
* `encoding/xml`, `net/url` and `fmt` are not part of the repository.
  `xml.Unmarshal` is a parameter (`XML`); `url.QueryEscape`,
  `url.Values.Encode` and the decimal rendering of `%v` are written out after
  the standard library.
-/

namespace Dogwatch

/-! ## Strings and errors -/

/-- One byte of a Go string. -/
abbrev Byte := Fin 256

/-- Go strings are byte sequences. -/
abbrev Str := List Byte

/-- The byte of an ASCII character. -/
def ch (c : Char) : Byte := Fin.ofNat c.toNat

/-- An ASCII string literal as a Go string. -/
def lit (s : String) : Str := s.toList.map ch

/-- A Go error value, identified with the text its `Error()` method yields. -/
structure GoError where
  msg : Str
deriving DecidableEq, Repr

/-- Decimal rendering of an `int`, as `%v` prints it. -/
def formatInt : Int → Str
  | Int.ofNat n => (Nat.toDigits 10 n).map ch
  | Int.negSucc n => ch '-' :: (Nat.toDigits 10 (n + 1)).map ch

/-- The call `fmt.Errorf(prefix + "%v", x)` where `x` renders as `arg`. -/
def errorf (pre : Str) (arg : Str) : GoError := ⟨pre ++ arg⟩

/-! ## cmd/root.go -/

/-- The slice `allowedCmds` of `CheckAPI`. -/
def allowedCmds : List Str := [lit "version", lit "help"]

/-- The loop `for _, cmd := range allowedCmds` of `CheckAPI`: true when it
returns early. -/
def isAllowed (cmdName : Str) : List Str → Bool
  | [] => false
  | cmd :: rest => if cmdName = cmd then true else isAllowed cmdName rest

/-- Embedding of `CheckAPI(cmdName, api)`. The pointer argument `api` is passed
in and returned as the second component; `env` is the value of the
environment variable `DOGNZB_API`. -/
def CheckAPI (cmdName : Str) (api : Str) (env : Str) : Option GoError × Str :=
  if isAllowed cmdName allowedCmds then (none, api)
  else if api ≠ [] then (none, api)
  else
    let api1 := env
    if api1 ≠ [] then (none, api1)
    else (some ⟨lit "missing required flag: -a, --apikey"⟩, api1)

/-! ## pkg/dognzb: data model -/

/-- Modelled from the spec: the declaration of the Go type `Type` (the resource
kind) is not among the sources; the client only ever converts it with
`string(t)`. A kind is the string that conversion yields, the name of the query
parameter that carries the identifier. -/
structure Kind where
  name : Str
deriving DecidableEq, Repr

/-- Modelled from the spec: the movie kind, whose identifier parameter the spec
calls `movieid`. -/
def Movies : Kind := ⟨lit "movieid"⟩

/-- Modelled from the spec: the TV kind, whose identifier parameter the spec
calls `showid`. -/
def TV : Kind := ⟨lit "showid"⟩

/-- Modelled from the spec: the channel element of a list document, holding the
items in document order. `Item` itself is left abstract. -/
structure Channel (Item : Type) where
  Items : List Item

/-- Modelled from the spec: `ListQuery`, a decoded list document: the channel
with its items, a numeric error code and an error description. -/
structure ListQuery (Item : Type) where
  Channel : Channel Item
  ErrorCode : Int
  ErrorDesc : Str

/-- Modelled from the spec: `AddRemoveQuery`, a decoded add/remove
acknowledgment: a string error code, an error description and the remaining
fields `Rest` of the document. -/
structure AddRemoveQuery (Rest : Type) where
  ErrorCode : Str
  ErrorDesc : Str
  rest : Rest

/-- The part of `*http.Response` the client reads: the status code and the
outcome of `ioutil.ReadAll(r.Body)`. -/
structure Response where
  StatusCode : Int
  Body : Except GoError Str

/-- The interface `Getter`: `Get(url)` yields a response or an error, and may
change the transport state `σ`. -/
abbrev Getter (σ : Type) := Str → σ → Except GoError Response × σ

/-- The struct `DogNZB`. -/
structure DogNZB (σ : Type) where
  api : Str
  h : Getter σ

/-- The constructor `New(api, h)`. -/
def New {σ : Type} (api : Str) (h : Getter σ) : DogNZB σ := { api := api, h := h }

/-- The two uses of `xml.Unmarshal`, one per target type. -/
structure XML (Item Rest : Type) where
  unmarshalList : Str → Except GoError (ListQuery Item)
  unmarshalAddRemove : Str → Except GoError (AddRemoveQuery Rest)

/-- What a method call leaves behind: the returned values, the receiver as it is
after the call, and the transport state after the call. -/
structure Outcome (σ α : Type) where
  ret : α
  client : DogNZB σ
  net : σ

/-- The constant `http.StatusOK`. -/
def StatusOK : Int := 200

/-- The constant `dogNZBURL`. -/
def dogNZBURL : Str := lit "https://api.dognzb.cr"

/-! ## net/url: query escaping and `Values.Encode` -/

/-- The test `shouldEscape(c, encodeQueryComponent)` of `net/url`: letters, digits
and the marks `-`, `_`, `.`, `~` are kept, every other byte is escaped. -/
def shouldEscape (c : Byte) : Bool :=
  if (ch 'a' ≤ c ∧ c ≤ ch 'z') ∨ (ch 'A' ≤ c ∧ c ≤ ch 'Z') ∨ (ch '0' ≤ c ∧ c ≤ ch '9') then false
  else if c = ch '-' ∨ c = ch '_' ∨ c = ch '.' ∨ c = ch '~' then false
  else true

/-- The table `upperhex`, indexed by a nibble. -/
def upperhex (n : Nat) : Byte := (lit "0123456789ABCDEF").getD n 0

/-- What `QueryEscape` writes for one byte: `+` for a space, `%XX` for a byte
that must be escaped, the byte itself otherwise. -/
def escapeByte (c : Byte) : Str :=
  if c = ch ' ' then [ch '+']
  else if shouldEscape c then [ch '%', upperhex (c.val >>> 4), upperhex (c.val &&& 15)]
  else [c]

/-- The function `url.QueryEscape`. -/
def QueryEscape (s : Str) : Str := s.flatMap escapeByte

/-- The type `url.Values`, a map from a key to its values, kept as an
association list with at most one entry per key. -/
abbrev Values := List (Str × List Str)

/-- Assignment `v[k] = x`: a later entry for the same key replaces the earlier. -/
def Values.set (v : Values) (k : Str) (x : List Str) : Values :=
  if v.any (fun p => p.1 = k) then v.map (fun p => if p.1 = k then (k, x) else p)
  else v ++ [(k, x)]

/-- Lookup `v[k]`; a missing key has no values. -/
def Values.get (v : Values) (k : Str) : List Str :=
  match v.find? (fun p => p.1 = k) with
  | some p => p.2
  | none => []

/-- Go's `<` on strings: bytewise lexicographic order. -/
def strLess : Str → Str → Bool
  | [], [] => false
  | [], _ :: _ => true
  | _ :: _, [] => false
  | a :: as, b :: bs => if a < b then true else if b < a then false else strLess as bs

/-- The call `sort.Strings(keys)`: the keys in ascending order. -/
def sortStrings (keys : List Str) : List Str :=
  keys.insertionSort (fun a b => strLess b a = false)

/-- One step of the inner loop of `Values.Encode`: an ampersand unless the buffer
is empty, then the escaped key, `=`, and the escaped value. -/
def writePair (keyEscaped : Str) (buf : Str) (val : Str) : Str :=
  (if buf.length > 0 then buf ++ [ch '&'] else buf) ++ keyEscaped ++ [ch '='] ++ QueryEscape val

/-- The method `Values.Encode`: keys in sorted order, each value of a key written
as `key=value`, pairs joined by `&`. -/
def Values.Encode (v : Values) : Str :=
  (sortStrings (v.map Prod.fst)).foldl
    (fun buf k => (Values.get v k).foldl (writePair (QueryEscape k)) buf) []

/-! ## pkg/dognzb: the client -/

/-- The method `buildURL(verb, t, id)`. -/
def DogNZB.buildURL {σ : Type} (d : DogNZB σ) (verb : Str) (t : Kind) (id : Str) : Str :=
  let params : Values :=
    Values.set (Values.set (Values.set (Values.set [] (lit "t") [verb]) (lit "o") [lit "json"])
      (lit "apikey") [d.api]) t.name [id]
  dogNZBURL ++ lit "/watchlist?" ++ params.Encode

/-- The method `get(url)`: one call of the injected `Get`, the status check
against `http.StatusOK`, then the body read. -/
def DogNZB.get {σ : Type} (d : DogNZB σ) (url : Str) (s : σ) :
    Outcome σ (Except GoError Str) :=
  match d.h url s with
  | (Except.error err, s1) =>
    { ret := Except.error (errorf (lit "failed to list: ") err.msg), client := d, net := s1 }
  | (Except.ok r, s1) =>
    if r.StatusCode ≠ StatusOK then
      { ret := Except.error (errorf (lit "bad response: ") (formatInt r.StatusCode)),
        client := d, net := s1 }
    else
      match r.Body with
      | Except.error err =>
        { ret := Except.error (errorf (lit "failed reading body: ") err.msg),
          client := d, net := s1 }
      | Except.ok b => { ret := Except.ok b, client := d, net := s1 }

/-- The method `List(t)`. The nil slice is the empty list. -/
def DogNZB.List {σ Item Rest : Type} (x : XML Item Rest) (d : DogNZB σ) (t : Kind) (s : σ) :
    Outcome σ (List Item × Option GoError) :=
  let o := d.get (d.buildURL (lit "list") t []) s
  match o.ret with
  | Except.error err => { ret := ([], some err), client := o.client, net := o.net }
  | Except.ok b =>
    match x.unmarshalList b with
    | Except.error err => { ret := ([], some err), client := o.client, net := o.net }
    | Except.ok q =>
      if q.ErrorCode ≠ 0 then
        { ret := ([], some (errorf [] q.ErrorDesc)), client := o.client, net := o.net }
      else { ret := (q.Channel.Items, none), client := o.client, net := o.net }

/-- The method `Add(t, id)`. -/
def DogNZB.Add {σ Item Rest : Type} (x : XML Item Rest) (d : DogNZB σ) (t : Kind) (id : Str)
    (s : σ) : Outcome σ (Option GoError) :=
  let o := d.get (d.buildURL (lit "add") t id) s
  match o.ret with
  | Except.error err => { ret := some err, client := o.client, net := o.net }
  | Except.ok b =>
    match x.unmarshalAddRemove b with
    | Except.error err => { ret := some err, client := o.client, net := o.net }
    | Except.ok q =>
      if q.ErrorCode ≠ [] then
        { ret := some (errorf [] q.ErrorDesc), client := o.client, net := o.net }
      else { ret := none, client := o.client, net := o.net }

/-- The method `Remove(t, id)`. The nil pointer is `none`. -/
def DogNZB.Remove {σ Item Rest : Type} (x : XML Item Rest) (d : DogNZB σ) (t : Kind) (id : Str)
    (s : σ) : Outcome σ (Option (AddRemoveQuery Rest) × Option GoError) :=
  let o := d.get (d.buildURL (lit "remove") t id) s
  match o.ret with
  | Except.error err => { ret := (none, some err), client := o.client, net := o.net }
  | Except.ok b =>
    match x.unmarshalAddRemove b with
    | Except.error err => { ret := (none, some err), client := o.client, net := o.net }
    | Except.ok q =>
      if q.ErrorCode ≠ [] then
        { ret := (none, some (errorf [] q.ErrorDesc)), client := o.client, net := o.net }
      else { ret := (some q, none), client := o.client, net := o.net }

/-! ## Observing the transport and the URL -/

/-- A getter that answers as `g` does and appends every URL it is asked for to a
log kept in the transport state. -/
def recording {σ : Type} (g : Getter σ) : Getter (σ × List Str) :=
  fun url s => ((g url s.1).1, ((g url s.1).2, s.2 ++ [url]))

/-- A getter that answers every request with the same result and has no state. -/
def constGetter (r : Except GoError Response) : Getter Unit := fun _ s => (r, s)

/-- A getter that answers every request with the given status and a readable
body. -/
def respond (status : Int) (body : Str) : Getter Unit :=
  constGetter (Except.ok { StatusCode := status, Body := Except.ok body })

/-- A decoder for examples, with natural numbers as items: the body `items` is a
list document with three items and error code 0, the body `err` is a document
with error code 1 and description `boom` (a list document that also carries two
items), the body `ack` is an acknowledgment with an empty error code; any other
body fails to decode. -/
def sampleXML : XML Nat Nat where
  unmarshalList := fun b =>
    if b = lit "items" then Except.ok ⟨⟨[10, 20, 30]⟩, 0, []⟩
    else if b = lit "err" then Except.ok ⟨⟨[10, 20]⟩, 1, lit "boom"⟩
    else Except.error ⟨lit "EOF"⟩
  unmarshalAddRemove := fun b =>
    if b = lit "ack" then Except.ok ⟨[], [], 7⟩
    else if b = lit "err" then Except.ok ⟨lit "1", lit "boom", 0⟩
    else Except.error ⟨lit "EOF"⟩

/-- The test `ishex` of `net/url`. -/
def ishex (c : Byte) : Bool :=
  (ch '0' ≤ c ∧ c ≤ ch '9') ∨ (ch 'a' ≤ c ∧ c ≤ ch 'f') ∨ (ch 'A' ≤ c ∧ c ≤ ch 'F')

/-- The function `unhex` of `net/url`: the value of a hexadecimal digit. -/
def unhex (c : Byte) : Nat :=
  if ch '0' ≤ c ∧ c ≤ ch '9' then c.val - (ch '0').val
  else if ch 'a' ≤ c ∧ c ≤ ch 'f' then c.val - (ch 'a').val + 10
  else if ch 'A' ≤ c ∧ c ≤ ch 'F' then c.val - (ch 'A').val + 10
  else 0

/-- The function `url.QueryUnescape`: `%XX` is the byte with that code, `+` is a
space, any other byte stands for itself; a `%` not followed by two hexadecimal
digits is an error (`none`). -/
def QueryUnescape : Str → Option Str
  | [] => some []
  | c :: rest =>
    if c = ch '%' then
      match rest with
      | a :: b :: rest2 =>
        if ishex a ∧ ishex b then
          (QueryUnescape rest2).map
            (fun u => Fin.ofNat (((unhex a <<< 4) % 256) ||| unhex b) :: u)
        else none
      | _ => none
    else if c = ch '+' then (QueryUnescape rest).map (fun u => ch ' ' :: u)
    else (QueryUnescape rest).map (fun u => c :: u)

/-- The pieces of a query string between ampersands. -/
def splitAmp : Str → List Str
  | [] => [[]]
  | c :: rest =>
    if c = ch '&' then [] :: splitAmp rest
    else
      match splitAmp rest with
      | [] => [[c]]
      | seg :: segs => (c :: seg) :: segs

/-- The call `strings.Cut(s, "=")`: the text before the first `=` and the text
after it (all of `s` and nothing when there is none). -/
def cutEq : Str → Str × Str
  | [] => ([], [])
  | c :: rest => if c = ch '=' then ([], rest) else ((c :: (cutEq rest).1), (cutEq rest).2)

/-- One `name=value` piece, percent-decoded on both sides. -/
def parsePair (seg : Str) : Option (Str × Str) :=
  match QueryUnescape (cutEq seg).1, QueryUnescape (cutEq seg).2 with
  | some k, some v => some (k, v)
  | _, _ => none

/-- The loop of `url.ParseQuery` over the pieces of a query string: an empty piece
is skipped, every other piece is cut at its first `=` and percent-decoded; `none`
when a piece does not decode. -/
def parseAll : List Str → Option (List (Str × Str))
  | [] => some []
  | seg :: segs =>
    if seg = [] then parseAll segs
    else
      match parsePair seg, parseAll segs with
      | some p, some ps => some (p :: ps)
      | _, _ => none

/-- Reading a query string back, as `url.ParseQuery` does: split on `&`, then
decode each `name=value` piece. The pairs come in the order of the query
string. -/
def parseQuery (q : Str) : Option (List (Str × Str)) := parseAll (splitAmp q)

/-- The text `Values.Encode` writes for one pair: escaped name, `=`, escaped
value. -/
def pairText (p : Str × Str) : Str := QueryEscape p.1 ++ ch '=' :: QueryEscape p.2

/-- The inner loop step of `Values.Encode` run over a list of pairs, starting from
the buffer `buf`. -/
def writeAll (buf : Str) (ps : List (Str × Str)) : Str :=
  ps.foldl (fun acc p => writePair (QueryEscape p.1) acc p.2) buf

/-- The pairs of a `Values` in the order `Encode` writes them: keys ascending, the
values of a key in their own order. -/
def pairsOf (v : Values) : List (Str × Str) :=
  (sortStrings (v.map Prod.fst)).flatMap (fun k => (Values.get v k).map (fun x => (k, x)))

/-- What `List` returns once `get` has delivered the body `b`: the decode error,
the service error, or the items. -/
def listDecoded {Item Rest : Type} (x : XML Item Rest) (b : Str) : List Item × Option GoError :=
  match x.unmarshalList b with
  | Except.error err => ([], some err)
  | Except.ok q => if q.ErrorCode ≠ 0 then ([], some (errorf [] q.ErrorDesc)) else (q.Channel.Items, none)

/-- What `Add` returns once `get` has delivered the body `b`. -/
def addDecoded {Item Rest : Type} (x : XML Item Rest) (b : Str) : Option GoError :=
  match x.unmarshalAddRemove b with
  | Except.error err => some err
  | Except.ok q => if q.ErrorCode ≠ [] then some (errorf [] q.ErrorDesc) else none

/-- What `Remove` returns once `get` has delivered the body `b`. -/
def removeDecoded {Item Rest : Type} (x : XML Item Rest) (b : Str) :
    Option (AddRemoveQuery Rest) × Option GoError :=
  match x.unmarshalAddRemove b with
  | Except.error err => (none, some err)
  | Except.ok q => if q.ErrorCode ≠ [] then (none, some (errorf [] q.ErrorDesc)) else (some q, none)

/-! ## Theorems -/

section Client

variable {σ Item Rest : Type}

/-- When `Get` answers with status 200 and a readable body, `get` hands that body
on and leaves the transport in the state `Get` left it in. -/
theorem get_of_ok (d : DogNZB σ) (url : Str) (s s1 : σ) (r : Response) (b : Str)
    (hget : d.h url s = (Except.ok r, s1)) (hstatus : r.StatusCode = 200)
    (hbody : r.Body = Except.ok b) :
    d.get url s = { ret := Except.ok b, client := d, net := s1 } := by
  unfold DogNZB.get
  rw [hget]
  simp [hstatus, hbody, StatusOK]

/-- When `Get` answers with a status other than 200, `get` fails with the
`bad response` error. -/
theorem get_of_bad_status (d : DogNZB σ) (url : Str) (s s1 : σ) (r : Response)
    (hget : d.h url s = (Except.ok r, s1)) (hstatus : r.StatusCode ≠ 200) :
    d.get url s =
      { ret := Except.error (errorf (lit "bad response: ") (formatInt r.StatusCode)),
        client := d, net := s1 } := by
  unfold DogNZB.get
  rw [hget]
  simp [hstatus, StatusOK]

/-- When `Get` itself fails, `get` fails with the `failed to list` error. -/
theorem get_of_error (d : DogNZB σ) (url : Str) (s s1 : σ) (e : GoError)
    (hget : d.h url s = (Except.error e, s1)) :
    d.get url s =
      { ret := Except.error (errorf (lit "failed to list: ") e.msg), client := d, net := s1 } := by
  unfold DogNZB.get
  rw [hget]

/-- The method `get` never changes the receiver and leaves the transport in the
state the single `Get` call produced. -/
theorem get_frame (d : DogNZB σ) (url : Str) (s : σ) :
    (d.get url s).client = d ∧ (d.get url s).net = (d.h url s).2 := by
  unfold DogNZB.get
  rcases hres : d.h url s with ⟨res, s1⟩
  cases res with
  | error e => simp
  | ok r =>
    by_cases hst : r.StatusCode = StatusOK
    · cases hb : r.Body <;> simp [hst, hb]
    · simp [hst]

/-- After a failed `get`, `List` returns no items and the error of `get`. -/
theorem List_of_get_error (x : XML Item Rest) (d : DogNZB σ) (t : Kind) (s : σ) (e : GoError)
    (h : (d.get (d.buildURL (lit "list") t []) s).ret = Except.error e) :
    (d.List x t s).ret = ([], some e) := by
  simp [DogNZB.List, h]

/-- After a successful `get`, `List` returns what decoding the body gives. -/
theorem List_of_get_ok (x : XML Item Rest) (d : DogNZB σ) (t : Kind) (s : σ) (b : Str)
    (h : (d.get (d.buildURL (lit "list") t []) s).ret = Except.ok b) :
    (d.List x t s).ret = listDecoded x b := by
  simp only [DogNZB.List, h, listDecoded]
  cases hq : x.unmarshalList b with
  | error e => simp
  | ok q => by_cases hc : q.ErrorCode = 0 <;> simp [hc]

/-- After a failed `get`, `Add` returns the error of `get`. -/
theorem Add_of_get_error (x : XML Item Rest) (d : DogNZB σ) (t : Kind) (id : Str) (s : σ)
    (e : GoError) (h : (d.get (d.buildURL (lit "add") t id) s).ret = Except.error e) :
    (d.Add x t id s).ret = some e := by
  simp [DogNZB.Add, h]

/-- After a successful `get`, `Add` returns what decoding the body gives. -/
theorem Add_of_get_ok (x : XML Item Rest) (d : DogNZB σ) (t : Kind) (id : Str) (s : σ)
    (b : Str) (h : (d.get (d.buildURL (lit "add") t id) s).ret = Except.ok b) :
    (d.Add x t id s).ret = addDecoded x b := by
  simp only [DogNZB.Add, h, addDecoded]
  cases hq : x.unmarshalAddRemove b with
  | error e => simp
  | ok q => by_cases hc : q.ErrorCode = [] <;> simp [hc]

/-- After a failed `get`, `Remove` returns no record and the error of `get`. -/
theorem Remove_of_get_error (x : XML Item Rest) (d : DogNZB σ) (t : Kind) (id : Str) (s : σ)
    (e : GoError) (h : (d.get (d.buildURL (lit "remove") t id) s).ret = Except.error e) :
    (d.Remove x t id s).ret = (none, some e) := by
  simp [DogNZB.Remove, h]

/-- After a successful `get`, `Remove` returns what decoding the body gives. -/
theorem Remove_of_get_ok (x : XML Item Rest) (d : DogNZB σ) (t : Kind) (id : Str) (s : σ)
    (b : Str) (h : (d.get (d.buildURL (lit "remove") t id) s).ret = Except.ok b) :
    (d.Remove x t id s).ret = removeDecoded x b := by
  simp only [DogNZB.Remove, h, removeDecoded]
  cases hq : x.unmarshalAddRemove b with
  | error e => simp
  | ok q => by_cases hc : q.ErrorCode = [] <;> simp [hc]

/-- The three methods pass on the receiver and the transport state of `get`. -/
theorem methods_frame (x : XML Item Rest) (d : DogNZB σ) (t : Kind) (id : Str) (s : σ) :
    ((d.List x t s).client = d ∧ (d.List x t s).net = (d.h (d.buildURL (lit "list") t []) s).2) ∧
    ((d.Add x t id s).client = d ∧
      (d.Add x t id s).net = (d.h (d.buildURL (lit "add") t id) s).2) ∧
    ((d.Remove x t id s).client = d ∧
      (d.Remove x t id s).net = (d.h (d.buildURL (lit "remove") t id) s).2) := by
  refine ⟨?_, ?_, ?_⟩
  · have hf := get_frame d (d.buildURL (lit "list") t []) s
    simp only [DogNZB.List]
    repeat' split
    all_goals exact hf
  · have hf := get_frame d (d.buildURL (lit "add") t id) s
    simp only [DogNZB.Add]
    repeat' split
    all_goals exact hf
  · have hf := get_frame d (d.buildURL (lit "remove") t id) s
    simp only [DogNZB.Remove]
    repeat' split
    all_goals exact hf

/-! ### List, Add and Remove on a decoded document -/

/-- C1: when `Get` answers the request of `List(t)` with status 200 and a readable
body that decodes as a list document `q` with error code 0, `List(t)` returns
exactly the items of `q`, in document order and as many as `q` has, together
with a nil error. -/
theorem List_returns_items (x : XML Item Rest) (d : DogNZB σ) (t : Kind) (s s1 : σ)
    (r : Response) (b : Str) (q : ListQuery Item)
    (hget : d.h (d.buildURL (lit "list") t []) s = (Except.ok r, s1))
    (hstatus : r.StatusCode = 200) (hbody : r.Body = Except.ok b)
    (hdec : x.unmarshalList b = Except.ok q) (hcode : q.ErrorCode = 0) :
    (d.List x t s).ret = (q.Channel.Items, none) ∧
      (d.List x t s).ret.1.length = q.Channel.Items.length := by
  have hg := get_of_ok d _ s s1 r b hget hstatus hbody
  have hl := List_of_get_ok x d t s b (by rw [hg])
  have hr : (d.List x t s).ret = (q.Channel.Items, none) := by
    rw [hl]
    simp [listDecoded, hdec, hcode]
  exact ⟨hr, by rw [hr]⟩

/-- C2 (amended): when `Get` answers the request of `List(t)` with status 200 and
a readable body that decodes as a list document `q` with a non-zero error code,
`List(t)` returns no items, whatever items `q` carries, and a non-nil error whose
message is the description of `q` (so the message contains that description). -/
theorem List_service_error (x : XML Item Rest) (d : DogNZB σ) (t : Kind) (s s1 : σ)
    (r : Response) (b : Str) (q : ListQuery Item)
    (hget : d.h (d.buildURL (lit "list") t []) s = (Except.ok r, s1))
    (hstatus : r.StatusCode = 200) (hbody : r.Body = Except.ok b)
    (hdec : x.unmarshalList b = Except.ok q) (hcode : q.ErrorCode ≠ 0) :
    ∃ e : GoError, (d.List x t s).ret = ([], some e) ∧ e.msg = q.ErrorDesc ∧
      q.ErrorDesc <:+: e.msg := by
  have hg := get_of_ok d _ s s1 r b hget hstatus hbody
  have hl := List_of_get_ok x d t s b (by rw [hg])
  refine ⟨errorf [] q.ErrorDesc, ?_, ?_, ?_⟩
  · rw [hl]
    simp [listDecoded, hdec, hcode]
  · simp [errorf]
  · simp [errorf]

/-- C3 (amended): when `Get` answers with status 200 and a readable body that
decodes as an add/remove document `q` with a non-empty error code, `Add(t, id)`
returns a non-nil error whose message is the description of `q`, and
`Remove(t, id)` returns a nil record with such an error. Whatever the transport
and the decoder do, `Remove` never returns a record together with an error. -/
theorem Add_Remove_service_error (x : XML Item Rest) (d : DogNZB σ) (t : Kind) (id : Str)
    (s : σ) :
    (∀ (s1 : σ) (r : Response) (b : Str) (q : AddRemoveQuery Rest),
      d.h (d.buildURL (lit "add") t id) s = (Except.ok r, s1) → r.StatusCode = 200 →
      r.Body = Except.ok b → x.unmarshalAddRemove b = Except.ok q → q.ErrorCode ≠ [] →
      (d.Add x t id s).ret = some ⟨q.ErrorDesc⟩) ∧
    (∀ (s1 : σ) (r : Response) (b : Str) (q : AddRemoveQuery Rest),
      d.h (d.buildURL (lit "remove") t id) s = (Except.ok r, s1) → r.StatusCode = 200 →
      r.Body = Except.ok b → x.unmarshalAddRemove b = Except.ok q → q.ErrorCode ≠ [] →
      (d.Remove x t id s).ret = (none, some ⟨q.ErrorDesc⟩)) ∧
    ((d.Remove x t id s).ret.2 ≠ none → (d.Remove x t id s).ret.1 = none) := by
  refine ⟨?_, ?_, ?_⟩
  · intro s1 r b q hget hstatus hbody hdec hcode
    have hg := get_of_ok d _ s s1 r b hget hstatus hbody
    rw [Add_of_get_ok x d t id s b (by rw [hg])]
    simp [addDecoded, hdec, hcode, errorf]
  · intro s1 r b q hget hstatus hbody hdec hcode
    have hg := get_of_ok d _ s s1 r b hget hstatus hbody
    rw [Remove_of_get_ok x d t id s b (by rw [hg])]
    simp [removeDecoded, hdec, hcode, errorf]
  · simp only [DogNZB.Remove]
    repeat' split
    all_goals simp

/-- C4 (amended): with a readable body, `get` fails exactly when the injected
`Get` returns an error or the response status is not 200; a response with status
200 is handed on to decoding. When `get` fails, `List`, `Add` and `Remove`
return its error and no data; when it succeeds with body `b`, they return what
decoding `b` gives. -/
theorem transport_failure_iff_not_200 (x : XML Item Rest) (d : DogNZB σ) (t : Kind)
    (id : Str) (s : σ) :
    (∀ url : Str, (∀ r, (d.h url s).1 = Except.ok r → ∃ b, r.Body = Except.ok b) →
      ((∃ e, (d.get url s).ret = Except.error e) ↔
        ((∃ e0, (d.h url s).1 = Except.error e0) ∨
          ∃ r, (d.h url s).1 = Except.ok r ∧ r.StatusCode ≠ 200))) ∧
    (∀ (url : Str) (r : Response) (b : Str), (d.h url s).1 = Except.ok r →
      r.StatusCode = 200 → r.Body = Except.ok b → (d.get url s).ret = Except.ok b) ∧
    ((∀ e, (d.get (d.buildURL (lit "list") t []) s).ret = Except.error e →
        (d.List x t s).ret = ([], some e)) ∧
      (∀ b, (d.get (d.buildURL (lit "list") t []) s).ret = Except.ok b →
        (d.List x t s).ret = listDecoded x b)) ∧
    ((∀ e, (d.get (d.buildURL (lit "add") t id) s).ret = Except.error e →
        (d.Add x t id s).ret = some e) ∧
      (∀ b, (d.get (d.buildURL (lit "add") t id) s).ret = Except.ok b →
        (d.Add x t id s).ret = addDecoded x b)) ∧
    ((∀ e, (d.get (d.buildURL (lit "remove") t id) s).ret = Except.error e →
        (d.Remove x t id s).ret = (none, some e)) ∧
      (∀ b, (d.get (d.buildURL (lit "remove") t id) s).ret = Except.ok b →
        (d.Remove x t id s).ret = removeDecoded x b)) := by
  refine ⟨?_, ?_, ⟨List_of_get_error x d t s, List_of_get_ok x d t s⟩,
    ⟨Add_of_get_error x d t id s, Add_of_get_ok x d t id s⟩,
    ⟨Remove_of_get_error x d t id s, Remove_of_get_ok x d t id s⟩⟩
  · intro url hread
    rcases hres : d.h url s with ⟨res, s1⟩
    rw [hres] at hread
    cases res with
    | error e0 =>
      rw [get_of_error d url s s1 e0 hres]
      simp
    | ok r =>
      obtain ⟨b, hb⟩ := hread r rfl
      by_cases hst : r.StatusCode = 200
      · rw [get_of_ok d url s s1 r b hres hst hb]
        simp [hst]
      · rw [get_of_bad_status d url s s1 r hres hst]
        simp [hst]
  · intro url r b hr hst hb
    rcases hres : d.h url s with ⟨res, s1⟩
    rw [hres] at hr
    simp only at hr
    subst hr
    rw [get_of_ok d url s s1 r b hres hst hb]

/-- C5 (amended): when `Get` answers with status 200 and a readable body on which
XML decoding fails with the error `e`, `List` returns `(nil, e)`, `Add` returns
`e` and `Remove` returns `(nil, e)`: the decode error itself, and no data. -/
theorem decode_failure (x : XML Item Rest) (d : DogNZB σ) (t : Kind) (id : Str) (s : σ) :
    (∀ (s1 : σ) (r : Response) (b : Str) (e : GoError),
      d.h (d.buildURL (lit "list") t []) s = (Except.ok r, s1) → r.StatusCode = 200 →
      r.Body = Except.ok b → x.unmarshalList b = Except.error e →
      (d.List x t s).ret = ([], some e)) ∧
    (∀ (s1 : σ) (r : Response) (b : Str) (e : GoError),
      d.h (d.buildURL (lit "add") t id) s = (Except.ok r, s1) → r.StatusCode = 200 →
      r.Body = Except.ok b → x.unmarshalAddRemove b = Except.error e →
      (d.Add x t id s).ret = some e) ∧
    (∀ (s1 : σ) (r : Response) (b : Str) (e : GoError),
      d.h (d.buildURL (lit "remove") t id) s = (Except.ok r, s1) → r.StatusCode = 200 →
      r.Body = Except.ok b → x.unmarshalAddRemove b = Except.error e →
      (d.Remove x t id s).ret = (none, some e)) := by
  refine ⟨?_, ?_, ?_⟩
  · intro s1 r b e hget hstatus hbody hdec
    have hg := get_of_ok d _ s s1 r b hget hstatus hbody
    rw [List_of_get_ok x d t s b (by rw [hg])]
    simp [listDecoded, hdec]
  · intro s1 r b e hget hstatus hbody hdec
    have hg := get_of_ok d _ s s1 r b hget hstatus hbody
    rw [Add_of_get_ok x d t id s b (by rw [hg])]
    simp [addDecoded, hdec]
  · intro s1 r b e hget hstatus hbody hdec
    have hg := get_of_ok d _ s s1 r b hget hstatus hbody
    rw [Remove_of_get_ok x d t id s b (by rw [hg])]
    simp [removeDecoded, hdec]

/-- C8: when `Get` answers with status 200 and a readable body that decodes as an
add/remove document `q` with an empty error code, `Add(t, id)` returns nil and
`Remove(t, id)` returns the record `q` as decoded, together with a nil error. -/
theorem Add_Remove_success (x : XML Item Rest) (d : DogNZB σ) (t : Kind) (id : Str) (s : σ) :
    (∀ (s1 : σ) (r : Response) (b : Str) (q : AddRemoveQuery Rest),
      d.h (d.buildURL (lit "add") t id) s = (Except.ok r, s1) → r.StatusCode = 200 →
      r.Body = Except.ok b → x.unmarshalAddRemove b = Except.ok q → q.ErrorCode = [] →
      (d.Add x t id s).ret = none) ∧
    (∀ (s1 : σ) (r : Response) (b : Str) (q : AddRemoveQuery Rest),
      d.h (d.buildURL (lit "remove") t id) s = (Except.ok r, s1) → r.StatusCode = 200 →
      r.Body = Except.ok b → x.unmarshalAddRemove b = Except.ok q → q.ErrorCode = [] →
      (d.Remove x t id s).ret = (some q, none)) := by
  refine ⟨?_, ?_⟩
  · intro s1 r b q hget hstatus hbody hdec hcode
    have hg := get_of_ok d _ s s1 r b hget hstatus hbody
    rw [Add_of_get_ok x d t id s b (by rw [hg])]
    simp [addDecoded, hdec, hcode]
  · intro s1 r b q hget hstatus hbody hdec hcode
    have hg := get_of_ok d _ s s1 r b hget hstatus hbody
    rw [Remove_of_get_ok x d t id s b (by rw [hg])]
    simp [removeDecoded, hdec, hcode]

/-- C9: with a transport that logs every `Get`, each of `List`, `Add` and `Remove`
adds exactly one entry to the log, the URL `buildURL` gives for its verb, kind
and identifier; the transport is left as that one call of `Get` left it, and
the client (api key and transport field) is unchanged. This holds whatever the
outcome of the call. -/
theorem one_get_per_call (x : XML Item Rest) (g : Getter σ) (api : Str) (t : Kind) (id : Str)
    (s : σ) (log : List Str) :
    (((New api (recording g)).List x t (s, log)).net =
        ((g ((New api (recording g)).buildURL (lit "list") t []) s).2,
          log ++ [(New api (recording g)).buildURL (lit "list") t []]) ∧
      ((New api (recording g)).List x t (s, log)).client = New api (recording g)) ∧
    (((New api (recording g)).Add x t id (s, log)).net =
        ((g ((New api (recording g)).buildURL (lit "add") t id) s).2,
          log ++ [(New api (recording g)).buildURL (lit "add") t id]) ∧
      ((New api (recording g)).Add x t id (s, log)).client = New api (recording g)) ∧
    (((New api (recording g)).Remove x t id (s, log)).net =
        ((g ((New api (recording g)).buildURL (lit "remove") t id) s).2,
          log ++ [(New api (recording g)).buildURL (lit "remove") t id]) ∧
      ((New api (recording g)).Remove x t id (s, log)).client = New api (recording g)) := by
  obtain ⟨⟨hl1, hl2⟩, ⟨ha1, ha2⟩, ⟨hr1, hr2⟩⟩ :=
    methods_frame x (New api (recording g)) t id (s, log)
  exact ⟨⟨by rw [hl2]; rfl, hl1⟩, ⟨by rw [ha2]; rfl, ha1⟩, ⟨by rw [hr2]; rfl, hr1⟩⟩

end Client

/-! ### The credential check -/

/-- The early-return loop of `CheckAPI` fires exactly on `version` and `help`. -/
theorem isAllowed_iff (cmdName : Str) :
    isAllowed cmdName allowedCmds = true ↔ cmdName = lit "version" ∨ cmdName = lit "help" := by
  simp only [allowedCmds, isAllowed]
  by_cases h1 : cmdName = lit "version"
  · simp [h1]
  · by_cases h2 : cmdName = lit "help" <;> simp [h1, h2]

/-- C10: `CheckAPI` returns an error exactly when the command is neither `version`
nor `help` and both the flag value and `DOGNZB_API` are empty. When the command
is `version` or `help`, or the flag value is non-empty, it returns nil and
leaves the flag value unchanged; in every other case the flag value becomes the
value of `DOGNZB_API`. -/
theorem CheckAPI_spec (cmdName api env : Str) :
    ((CheckAPI cmdName api env).1 ≠ none ↔
      (cmdName ≠ lit "version" ∧ cmdName ≠ lit "help" ∧ api = [] ∧ env = [])) ∧
    ((cmdName = lit "version" ∨ cmdName = lit "help" ∨ api ≠ []) →
      CheckAPI cmdName api env = (none, api)) ∧
    (¬ (cmdName = lit "version" ∨ cmdName = lit "help" ∨ api ≠ []) →
      (CheckAPI cmdName api env).2 = env) := by
  have hal := isAllowed_iff cmdName
  by_cases ha : isAllowed cmdName allowedCmds = true
  · have hc := hal.mp ha
    have hv : CheckAPI cmdName api env = (none, api) := by simp [CheckAPI, ha]
    refine ⟨?_, fun _ => hv, ?_⟩
    · rw [hv]
      rcases hc with hc | hc <;> simp [hc]
    · intro hn
      rcases hc with hc | hc <;> simp [hc] at hn
  · have hc : ¬ (cmdName = lit "version" ∨ cmdName = lit "help") := fun h => ha (hal.mpr h)
    push_neg at hc
    by_cases hapi : api = []
    · by_cases henv : env = []
      · simp [CheckAPI, ha, hapi, henv, hc.1, hc.2]
      · simp [CheckAPI, ha, hapi, henv, hc.1, hc.2]
    · simp [CheckAPI, ha, hapi, hc.1, hc.2]

/-! ### Query escaping and the built URL -/

set_option maxRecDepth 100000 in
/-- Facts about single bytes, checked on all 256 of them: the two digits written
for an escaped byte are hexadecimal digits that decode to the byte and are
neither `&` nor `=`; a byte written as it is is none of `%`, `+`, `&`, `=` and
the space. -/
theorem byte_facts : ∀ c : Byte,
    (shouldEscape c = true →
      ishex (upperhex (c.val >>> 4)) = true ∧ ishex (upperhex (c.val &&& 15)) = true ∧
      (Fin.ofNat (((unhex (upperhex (c.val >>> 4)) <<< 4) % 256) |||
        unhex (upperhex (c.val &&& 15))) : Byte) = c ∧
      upperhex (c.val >>> 4) ≠ ch '&' ∧ upperhex (c.val >>> 4) ≠ ch '=' ∧
      upperhex (c.val &&& 15) ≠ ch '&' ∧ upperhex (c.val &&& 15) ≠ ch '=') ∧
    (shouldEscape c = false →
      c ≠ ch '%' ∧ c ≠ ch '+' ∧ c ≠ ch '&' ∧ c ≠ ch '=' ∧ c ≠ ch ' ') := by
  decide

/-- Decoding undoes the escaping of one byte. -/
theorem QueryUnescape_escapeByte (c : Byte) (rest : Str) :
    QueryUnescape (escapeByte c ++ rest) = (QueryUnescape rest).map (fun u => c :: u) := by
  unfold escapeByte
  by_cases hsp : c = ch ' '
  · subst hsp
    have h1 : ch '+' ≠ ch '%' := by decide
    simp only [if_true, List.cons_append, List.nil_append]
    rw [QueryUnescape.eq_def]
    simp [h1]
  · cases hesc : shouldEscape c with
    | true =>
      obtain ⟨ha, hb, hv, -⟩ := (byte_facts c).1 hesc
      simp only [hsp, if_false, if_true, List.cons_append, List.nil_append]
      rw [QueryUnescape.eq_def]
      simp [ha, hb, hv]
    | false =>
      obtain ⟨h1, h2, -⟩ := (byte_facts c).2 hesc
      simp only [hsp, if_false, List.cons_append, List.nil_append]
      rw [QueryUnescape.eq_def]
      simp [h1, h2]

/-- The function `QueryUnescape` undoes `QueryEscape` on every string. -/
theorem QueryUnescape_QueryEscape (s : Str) : QueryUnescape (QueryEscape s) = some s := by
  induction s with
  | nil => simp [QueryEscape, QueryUnescape]
  | cons c rest ih =>
    have h : QueryEscape (c :: rest) = escapeByte c ++ QueryEscape rest := by
      simp [QueryEscape]
    rw [h, QueryUnescape_escapeByte, ih]
    rfl

/-- An escaped byte contains neither `&` nor `=`. -/
theorem escapeByte_no_separator (c : Byte) :
    ch '&' ∉ escapeByte c ∧ ch '=' ∉ escapeByte c := by
  unfold escapeByte
  by_cases hsp : c = ch ' '
  · subst hsp
    decide
  · cases hesc : shouldEscape c with
    | true =>
      obtain ⟨-, -, -, h1, h2, h3, h4⟩ := (byte_facts c).1 hesc
      have p1 : ch '&' ≠ ch '%' := by decide
      have p2 : ch '=' ≠ ch '%' := by decide
      simp [hsp, p1, p2, Ne.symm h1, Ne.symm h2, Ne.symm h3, Ne.symm h4]
    | false =>
      obtain ⟨-, -, h3, h4, -⟩ := (byte_facts c).2 hesc
      simp [hsp, Ne.symm h3, Ne.symm h4]

/-- An escaped string contains neither `&` nor `=`. -/
theorem QueryEscape_no_separator (s : Str) :
    ch '&' ∉ QueryEscape s ∧ ch '=' ∉ QueryEscape s := by
  constructor
  · intro h
    obtain ⟨c, -, hc⟩ := List.mem_flatMap.mp h
    exact (escapeByte_no_separator c).1 hc
  · intro h
    obtain ⟨c, -, hc⟩ := List.mem_flatMap.mp h
    exact (escapeByte_no_separator c).2 hc

/-- Cutting at the first `=` splits where the `=` was put. -/
theorem cutEq_append (k v : Str) (hk : ch '=' ∉ k) : cutEq (k ++ ch '=' :: v) = (k, v) := by
  induction k with
  | nil => simp [cutEq]
  | cons c rest ih =>
    have hc : c ≠ ch '=' := fun h => hk (by simp [h])
    have hr : ch '=' ∉ rest := fun h => hk (by simp [h])
    simp [cutEq, hc, ih hr]

/-- A piece without `&` is split off whole. -/
theorem splitAmp_append (seg rest : Str) (hs : ch '&' ∉ seg) :
    splitAmp (seg ++ ch '&' :: rest) = seg :: splitAmp rest := by
  induction seg with
  | nil => simp [splitAmp]
  | cons c tl ih =>
    have hc : c ≠ ch '&' := fun h => hs (by simp [h])
    have hr : ch '&' ∉ tl := fun h => hs (by simp [h])
    simp [splitAmp, hc, ih hr]

/-- A string without `&` is a single piece. -/
theorem splitAmp_single (seg : Str) (hs : ch '&' ∉ seg) : splitAmp seg = [seg] := by
  induction seg with
  | nil => simp [splitAmp]
  | cons c tl ih =>
    have hc : c ≠ ch '&' := fun h => hs (by simp [h])
    have hr : ch '&' ∉ tl := fun h => hs (by simp [h])
    simp [splitAmp, hc, ih hr]

/-- The text of a pair has no `&`, is not empty, and decodes to the pair. -/
theorem pairText_facts (p : Str × Str) :
    ch '&' ∉ pairText p ∧ pairText p ≠ [] ∧ parsePair (pairText p) = some p := by
  have hk := QueryEscape_no_separator p.1
  have hv := QueryEscape_no_separator p.2
  have hne : ch '&' ≠ ch '=' := by decide
  refine ⟨?_, ?_, ?_⟩
  · simp [pairText, hk.1, hv.1, hne]
  · simp [pairText]
  · simp [parsePair, pairText, cutEq_append _ _ hk.2, QueryUnescape_QueryEscape]

/-- The loops of `Values.Encode` over keys and values amount to one loop over the
pairs. -/
theorem foldl_keys_eq_writeAll (v : Values) (ks : List Str) (buf : Str) :
    ks.foldl (fun acc k => (Values.get v k).foldl (writePair (QueryEscape k)) acc) buf =
      writeAll buf (ks.flatMap (fun k => (Values.get v k).map (fun x => (k, x)))) := by
  induction ks generalizing buf with
  | nil => simp [writeAll]
  | cons k rest ih =>
    simp only [List.foldl_cons, List.flatMap_cons]
    rw [ih]
    simp [writeAll, List.foldl_append, List.foldl_map]

/-- The method `Values.Encode` writes the pairs of `pairsOf` into an empty buffer. -/
theorem Encode_eq_writeAll (v : Values) : Values.Encode v = writeAll [] (pairsOf v) := by
  unfold Values.Encode pairsOf
  exact foldl_keys_eq_writeAll v _ []

/-- Into a non-empty buffer every pair is written after an ampersand. -/
theorem writeAll_of_ne_nil (ps : List (Str × Str)) (buf : Str) (hb : buf ≠ []) :
    writeAll buf ps = buf ++ ps.flatMap (fun p => ch '&' :: pairText p) := by
  induction ps generalizing buf with
  | nil => simp [writeAll]
  | cons p rest ih =>
    have hlen : buf.length > 0 := List.length_pos.mpr hb
    have hstep : writePair (QueryEscape p.1) buf p.2 = buf ++ ch '&' :: pairText p := by
      simp [writePair, hlen, pairText]
    have hne : buf ++ ch '&' :: pairText p ≠ [] := by simp
    have hunf : writeAll buf (p :: rest) = writeAll (writePair (QueryEscape p.1) buf p.2) rest := by
      simp [writeAll]
    rw [hunf, hstep, ih _ hne]
    simp

/-- Into an empty buffer the first pair is written without an ampersand. -/
theorem writeAll_nil_cons (p : Str × Str) (ps : List (Str × Str)) :
    writeAll [] (p :: ps) = pairText p ++ ps.flatMap (fun q => ch '&' :: pairText q) := by
  have hstep : writePair (QueryEscape p.1) [] p.2 = pairText p := by
    simp [writePair, pairText]
  have hunf : writeAll [] (p :: ps) = writeAll (writePair (QueryEscape p.1) [] p.2) ps := by
    simp [writeAll]
  rw [hunf, hstep, writeAll_of_ne_nil ps _ (pairText_facts p).2.1]

/-- Splitting the written text on `&` gives back the texts of the pairs. -/
theorem splitAmp_written (p : Str × Str) (ps : List (Str × Str)) :
    splitAmp (pairText p ++ ps.flatMap (fun q => ch '&' :: pairText q)) =
      pairText p :: ps.map pairText := by
  induction ps generalizing p with
  | nil => simpa using splitAmp_single _ (pairText_facts p).1
  | cons q rest ih =>
    have h : pairText p ++ (q :: rest).flatMap (fun q => ch '&' :: pairText q) =
        pairText p ++ ch '&' :: (pairText q ++ rest.flatMap (fun q => ch '&' :: pairText q)) := by
      simp
    rw [h, splitAmp_append _ _ (pairText_facts p).1, ih q]
    simp

/-- Decoding the texts of pairs gives back the pairs. -/
theorem parseAll_map_pairText (ps : List (Str × Str)) :
    parseAll (ps.map pairText) = some ps := by
  induction ps with
  | nil => simp [parseAll]
  | cons p rest ih =>
    obtain ⟨-, hne, hp⟩ := pairText_facts p
    simp [parseAll, hne, hp, ih]

/-- Reading back what the encoding loop wrote gives the pairs, in order. -/
theorem parseQuery_writeAll (ps : List (Str × Str)) : parseQuery (writeAll [] ps) = some ps := by
  cases ps with
  | nil => simp [parseQuery, writeAll, splitAmp, parseAll]
  | cons p rest =>
    rw [parseQuery, writeAll_nil_cons, splitAmp_written]
    exact parseAll_map_pairText (p :: rest)

/-- Reading back an encoded `Values` gives its pairs, keys ascending. -/
theorem parseQuery_Encode (v : Values) : parseQuery (Values.Encode v) = some (pairsOf v) := by
  rw [Encode_eq_writeAll]
  exact parseQuery_writeAll _

/-- The parameters of `buildURL`, when the identifier parameter has a name of its
own: four entries, one value each. -/
theorem params_of_distinct (verb api name id : Str) (h1 : name ≠ lit "t") (h2 : name ≠ lit "o")
    (h3 : name ≠ lit "apikey") :
    Values.set (Values.set (Values.set (Values.set [] (lit "t") [verb]) (lit "o") [lit "json"])
      (lit "apikey") [api]) name [id] =
      [(lit "t", [verb]), (lit "o", [lit "json"]), (lit "apikey", [api]), (name, [id])] := by
  have e1 : lit "t" ≠ lit "o" := by decide
  have e2 : lit "t" ≠ lit "apikey" := by decide
  have e3 : lit "o" ≠ lit "apikey" := by decide
  simp [Values.set, e1, e2, e3, Ne.symm h1, Ne.symm h2, Ne.symm h3]

/-- The pairs `Encode` writes for the parameters of `buildURL` are the four pairs,
in some order. -/
theorem pairsOf_params (verb api name id : Str) (h1 : name ≠ lit "t") (h2 : name ≠ lit "o")
    (h3 : name ≠ lit "apikey") :
    (pairsOf [(lit "t", [verb]), (lit "o", [lit "json"]), (lit "apikey", [api]),
      (name, [id])]).Perm
      [(lit "t", verb), (lit "o", lit "json"), (lit "apikey", api), (name, id)] := by
  have e1 : lit "t" ≠ lit "o" := by decide
  have e2 : lit "t" ≠ lit "apikey" := by decide
  have e3 : lit "o" ≠ lit "apikey" := by decide
  unfold pairsOf sortStrings
  refine (List.Perm.flatMap_right _ (List.perm_insertionSort _ _)).trans ?_
  simp [Values.get, List.find?, e1, e2, e3, Ne.symm e1, Ne.symm e2, Ne.symm e3, h1, h2, h3,
    Ne.symm h1, Ne.symm h2, Ne.symm h3]

/-- The URL `buildURL` gives, read back: the fixed prefix, then a query string
that parses to the four parameters, in some order. -/
theorem buildURL_parse {σ : Type} (d : DogNZB σ) (verb : Str) (t : Kind) (id : Str)
    (h1 : t.name ≠ lit "t") (h2 : t.name ≠ lit "o") (h3 : t.name ≠ lit "apikey") :
    ∃ q ps, d.buildURL verb t id = lit "https://api.dognzb.cr/watchlist?" ++ q ∧
      parseQuery q = some ps ∧
      ps.Perm [(lit "t", verb), (lit "o", lit "json"), (lit "apikey", d.api), (t.name, id)] := by
  have hpre : dogNZBURL ++ lit "/watchlist?" = lit "https://api.dognzb.cr/watchlist?" := by
    decide
  have hurl : d.buildURL verb t id = lit "https://api.dognzb.cr/watchlist?" ++
      Values.Encode [(lit "t", [verb]), (lit "o", [lit "json"]), (lit "apikey", [d.api]),
        (t.name, [id])] := by
    simp only [DogNZB.buildURL]
    rw [hpre, params_of_distinct verb d.api t.name id h1 h2 h3]
  exact ⟨_, _, hurl, parseQuery_Encode _, pairsOf_params verb d.api t.name id h1 h2 h3⟩

/-- In a `Values` that has an entry for `k`, the replacing assignment makes the
first entry for `k` the new one. -/
theorem find_replaced (v : Values) (k : Str) (x : List Str)
    (h : v.any (fun p => decide (p.1 = k)) = true) :
    (v.map (fun p => if p.1 = k then (k, x) else p)).find? (fun p => decide (p.1 = k)) =
      some (k, x) := by
  induction v with
  | nil => simp at h
  | cons p rest ih =>
    by_cases hp : p.1 = k
    · simp [hp]
    · have hr : rest.any (fun p => decide (p.1 = k)) = true := by
        simpa [hp] using h
      simp [hp, List.find?, ih hr]

/-- A lookup after the assignment `v[k] = x` gives `x`. -/
theorem get_set_self (v : Values) (k : Str) (x : List Str) :
    Values.get (Values.set v k x) k = x := by
  unfold Values.set Values.get
  by_cases h : v.any (fun p => decide (p.1 = k)) = true
  · rw [if_pos h, find_replaced v k x h]
  · rw [if_neg h]
    have hnone : v.find? (fun p => decide (p.1 = k)) = none := by
      rw [List.find?_eq_none]
      intro p hp hk
      exact h (List.any_eq_true.mpr ⟨p, hp, hk⟩)
    simp [List.find?_append, hnone]

/-- After the assignment `v[k] = x` the key `k` is among the keys. -/
theorem mem_keys_set (v : Values) (k : Str) (x : List Str) :
    k ∈ (Values.set v k x).map Prod.fst := by
  unfold Values.set
  by_cases h : v.any (fun p => decide (p.1 = k)) = true
  · rw [if_pos h]
    obtain ⟨p, hp, hk⟩ := List.any_eq_true.mp h
    have hk1 : p.1 = k := by simpa using hk
    exact List.mem_map.mpr ⟨(k, x), List.mem_map.mpr ⟨p, hp, by simp [hk1]⟩, rfl⟩
  · rw [if_neg h]
    simp

/-- What was assigned last is among the pairs `Encode` writes. -/
theorem mem_pairsOf_set (v : Values) (k id : Str) : (k, id) ∈ pairsOf (Values.set v k [id]) := by
  unfold pairsOf sortStrings
  refine List.mem_flatMap.mpr ⟨k, ?_, ?_⟩
  · exact (List.perm_insertionSort _ _).mem_iff.mpr (mem_keys_set v k [id])
  · rw [get_set_self]
    simp

/-- C6: for a kind whose parameter name is none of `t`, `o` and `apikey`, the URL of
`buildURL(verb, t, id)` is `https://api.dognzb.cr/watchlist?` followed by a query
string which, split on `&` and percent-decoded, gives exactly the four pairs
`t=verb`, `o=json`, `apikey=<key>` and `<name of t>=id`, each name once and each
value unchanged, whatever bytes the values contain. -/
theorem buildURL_four_parameters {σ : Type} (d : DogNZB σ) (verb : Str) (t : Kind) (id : Str)
    (h1 : t.name ≠ lit "t") (h2 : t.name ≠ lit "o") (h3 : t.name ≠ lit "apikey") :
    ∃ q ps, d.buildURL verb t id = lit "https://api.dognzb.cr/watchlist?" ++ q ∧
      parseQuery q = some ps ∧
      ps.Perm [(lit "t", verb), (lit "o", lit "json"), (lit "apikey", d.api), (t.name, id)] ∧
      (ps.map Prod.fst).Nodup := by
  obtain ⟨q, ps, hurl, hparse, hperm⟩ := buildURL_parse d verb t id h1 h2 h3
  refine ⟨q, ps, hurl, hparse, hperm, ?_⟩
  have e1 : lit "t" ≠ lit "o" := by decide
  have e2 : lit "t" ≠ lit "apikey" := by decide
  have e3 : lit "o" ≠ lit "apikey" := by decide
  rw [(hperm.map Prod.fst).nodup_iff]
  simp [e1, e2, e3, Ne.symm h1, Ne.symm h2, Ne.symm h3]

/-- The URL `buildURL` gives for any kind, read back: the fixed prefix, then a
query string among whose parameters is the identifier parameter of the kind,
bound to the identifier passed. -/
theorem buildURL_carries {σ : Type} (d : DogNZB σ) (verb : Str) (t : Kind) (id : Str) :
    ∃ q ps, d.buildURL verb t id = lit "https://api.dognzb.cr/watchlist?" ++ q ∧
      parseQuery q = some ps ∧ (t.name, id) ∈ ps := by
  have hpre : dogNZBURL ++ lit "/watchlist?" = lit "https://api.dognzb.cr/watchlist?" := by
    decide
  refine ⟨Values.Encode (Values.set (Values.set (Values.set (Values.set [] (lit "t")
      [verb]) (lit "o") [lit "json"]) (lit "apikey") [d.api]) t.name [id]),
    pairsOf (Values.set (Values.set (Values.set (Values.set [] (lit "t")
      [verb]) (lit "o") [lit "json"]) (lit "apikey") [d.api]) t.name [id]),
    ?_, parseQuery_Encode _, mem_pairsOf_set _ t.name id⟩
  simp only [DogNZB.buildURL]
  rw [hpre]

/-- C7 (amended): for every kind `t`, the one URL that `List(t)` requests is
`https://api.dognzb.cr/watchlist?` followed by a query string in which the
identifier parameter of `t` is present, bound to the empty string; when the name
of that parameter is none of `t`, `o` and `apikey`, the query string holds exactly
the four parameters `t=list`, `o=json`, `apikey=<key>` and the identifier
parameter with the empty value. The URLs that `Add(t, id)` and `Remove(t, id)`
request carry the identifier parameter as well, bound to `id`. -/
theorem List_url_carries_identifier {σ Item Rest : Type} (x : XML Item Rest) (g : Getter σ)
    (api : Str) (t : Kind) (s : σ) (log : List Str) :
    (∃ q ps,
      ((New api (recording g)).List x t (s, log)).net.2 =
        log ++ [lit "https://api.dognzb.cr/watchlist?" ++ q] ∧
      parseQuery q = some ps ∧ (t.name, []) ∈ ps ∧
      (t.name ≠ lit "t" → t.name ≠ lit "o" → t.name ≠ lit "apikey" →
        ps.Perm [(lit "t", lit "list"), (lit "o", lit "json"), (lit "apikey", api),
          (t.name, [])])) ∧
    (∀ id : Str, ∃ q ps,
      ((New api (recording g)).Add x t id (s, log)).net.2 =
        log ++ [lit "https://api.dognzb.cr/watchlist?" ++ q] ∧
      parseQuery q = some ps ∧ (t.name, id) ∈ ps) ∧
    (∀ id : Str, ∃ q ps,
      ((New api (recording g)).Remove x t id (s, log)).net.2 =
        log ++ [lit "https://api.dognzb.cr/watchlist?" ++ q] ∧
      parseQuery q = some ps ∧ (t.name, id) ∈ ps) := by
  have hpre : dogNZBURL ++ lit "/watchlist?" = lit "https://api.dognzb.cr/watchlist?" := by
    decide
  refine ⟨?_, ?_, ?_⟩
  · have hnet := (methods_frame x (New api (recording g)) t [] (s, log)).1.2
    refine ⟨Values.Encode (Values.set (Values.set (Values.set (Values.set [] (lit "t")
        [lit "list"]) (lit "o") [lit "json"]) (lit "apikey") [api]) t.name [[]]),
      pairsOf (Values.set (Values.set (Values.set (Values.set [] (lit "t")
        [lit "list"]) (lit "o") [lit "json"]) (lit "apikey") [api]) t.name [[]]),
      ?_, parseQuery_Encode _, mem_pairsOf_set _ t.name [], ?_⟩
    · rw [hnet]
      simp only [recording, New, DogNZB.buildURL]
      rw [hpre]
    · intro h1 h2 h3
      rw [params_of_distinct (lit "list") api t.name [] h1 h2 h3]
      exact pairsOf_params (lit "list") api t.name [] h1 h2 h3
  · intro id
    have hnet := (methods_frame x (New api (recording g)) t id (s, log)).2.1.2
    obtain ⟨q, ps, hurl, hparse, hmem⟩ :=
      buildURL_carries (New api (recording g)) (lit "add") t id
    refine ⟨q, ps, ?_, hparse, hmem⟩
    rw [hnet, ← hurl]
    rfl
  · intro id
    have hnet := (methods_frame x (New api (recording g)) t id (s, log)).2.2.2
    obtain ⟨q, ps, hurl, hparse, hmem⟩ :=
      buildURL_carries (New api (recording g)) (lit "remove") t id
    refine ⟨q, ps, ?_, hparse, hmem⟩
    rw [hnet, ← hurl]
    rfl

/-! ### Instances at concrete inputs -/

/-- C1 at a transport answering 200 with the body `items`: the three items come
back in order, with a nil error. -/
theorem List_returns_items_witness :
    ((New (lit "k") (respond 200 (lit "items"))).List sampleXML Movies ()).ret =
        ([10, 20, 30], none) ∧
      ((New (lit "k") (respond 200 (lit "items"))).List sampleXML Movies ()).ret.1.length = 3 :=
  List_returns_items sampleXML (New (lit "k") (respond 200 (lit "items"))) Movies () ()
    { StatusCode := 200, Body := Except.ok (lit "items") } (lit "items")
    ⟨⟨[10, 20, 30]⟩, 0, []⟩ rfl rfl rfl rfl rfl

/-- C2 as stated fails: a response with status 500 whose body decodes as a list
document with error code 1 and description `boom` makes `List` return the error
`bad response: 500`, which does not contain `boom`. -/
theorem List_error_document_behind_status_500 :
    sampleXML.unmarshalList (lit "err") = Except.ok ⟨⟨[10, 20]⟩, 1, lit "boom"⟩ ∧
    ((New (lit "k") (respond 500 (lit "err"))).List sampleXML Movies ()).ret =
      ([], some ⟨lit "bad response: 500"⟩) ∧
    ¬ (lit "boom" <:+: lit "bad response: 500") :=
  ⟨rfl, by decide, by decide⟩

/-- C2 (amended) at a transport answering 200 with the body `err`: no items, and
the error `boom`. -/
theorem List_service_error_witness :
    ∃ e : GoError,
      ((New (lit "k") (respond 200 (lit "err"))).List sampleXML Movies ()).ret = ([], some e) ∧
      e.msg = lit "boom" ∧ lit "boom" <:+: e.msg :=
  List_service_error sampleXML (New (lit "k") (respond 200 (lit "err"))) Movies () ()
    { StatusCode := 200, Body := Except.ok (lit "err") } (lit "err")
    ⟨⟨[10, 20]⟩, 1, lit "boom"⟩ rfl rfl rfl rfl (by decide)

/-- C3 as stated fails: a response with status 404 whose body decodes as an
add/remove document with error code `1` and description `boom` makes `Add` and
`Remove` return the error `bad response: 404`, whose message is not `boom`. -/
theorem Add_error_document_behind_status_404 :
    sampleXML.unmarshalAddRemove (lit "err") = Except.ok ⟨lit "1", lit "boom", 0⟩ ∧
    ((New (lit "k") (respond 404 (lit "err"))).Add sampleXML Movies (lit "tt1") ()).ret =
      some ⟨lit "bad response: 404"⟩ ∧
    ((New (lit "k") (respond 404 (lit "err"))).Remove sampleXML Movies (lit "tt1") ()).ret =
      (none, some ⟨lit "bad response: 404"⟩) ∧
    lit "bad response: 404" ≠ lit "boom" :=
  ⟨rfl, by decide, rfl, by decide⟩

/-- C3 (amended) at a transport answering 200 with the body `err`: `Add` returns
the error `boom`, and so does `Remove`, with a nil record. -/
theorem Add_Remove_service_error_witness :
    ((New (lit "k") (respond 200 (lit "err"))).Add sampleXML Movies (lit "tt1") ()).ret =
      some ⟨lit "boom"⟩ ∧
    ((New (lit "k") (respond 200 (lit "err"))).Remove sampleXML Movies (lit "tt1") ()).ret =
      (none, some ⟨lit "boom"⟩) :=
  ⟨(Add_Remove_service_error sampleXML (New (lit "k") (respond 200 (lit "err"))) Movies
      (lit "tt1") ()).1 () { StatusCode := 200, Body := Except.ok (lit "err") } (lit "err")
      ⟨lit "1", lit "boom", 0⟩ rfl rfl rfl rfl (by decide),
    (Add_Remove_service_error sampleXML (New (lit "k") (respond 200 (lit "err"))) Movies
      (lit "tt1") ()).2.1 () { StatusCode := 200, Body := Except.ok (lit "err") } (lit "err")
      ⟨lit "1", lit "boom", 0⟩ rfl rfl rfl rfl (by decide)⟩

/-- C4 as stated fails: status 201 lies in 200..299, `Get` returns no error and the
body is readable and would decode to three items, yet `get` fails with
`bad response: 201` and `List`, `Add` and `Remove` return that error and no
data. -/
theorem status_201_is_a_transport_failure :
    ((200 : Int) ≤ 201 ∧ (201 : Int) ≤ 299) ∧
    listDecoded sampleXML (lit "items") = ([10, 20, 30], none) ∧
    ((New (lit "k") (respond 201 (lit "items"))).get (lit "u") ()).ret =
      Except.error ⟨lit "bad response: 201"⟩ ∧
    ((New (lit "k") (respond 201 (lit "items"))).List sampleXML Movies ()).ret =
      ([], some ⟨lit "bad response: 201"⟩) ∧
    ((New (lit "k") (respond 201 (lit "ack"))).Add sampleXML Movies (lit "tt1") ()).ret =
      some ⟨lit "bad response: 201"⟩ ∧
    ((New (lit "k") (respond 201 (lit "ack"))).Remove sampleXML Movies (lit "tt1") ()).ret =
      (none, some ⟨lit "bad response: 201"⟩) :=
  ⟨by decide, by decide, rfl, by decide, by decide, rfl⟩

/-- C4 (amended) at a transport answering 500 with a readable body: `get` fails. -/
theorem transport_failure_iff_not_200_witness :
    ∃ e, ((New (lit "k") (respond 500 (lit "items"))).get (lit "u") ()).ret = Except.error e :=
  ((transport_failure_iff_not_200 sampleXML (New (lit "k") (respond 500 (lit "items"))) Movies
      [] ()).1 (lit "u")
    (fun r hr => ⟨lit "items", by cases hr; rfl⟩)).mpr
    (Or.inr ⟨{ StatusCode := 500, Body := Except.ok (lit "items") }, rfl, by decide⟩)

/-- C5 as stated fails: status 204 is a success status and decoding the body
`garbage` fails with `EOF`, yet `List`, `Add` and `Remove` return the error
`bad response: 204`, not the decode error. -/
theorem decode_failure_behind_status_204 :
    sampleXML.unmarshalList (lit "garbage") = Except.error ⟨lit "EOF"⟩ ∧
    sampleXML.unmarshalAddRemove (lit "garbage") = Except.error ⟨lit "EOF"⟩ ∧
    ((New (lit "k") (respond 204 (lit "garbage"))).List sampleXML Movies ()).ret =
      ([], some ⟨lit "bad response: 204"⟩) ∧
    ((New (lit "k") (respond 204 (lit "garbage"))).Add sampleXML Movies (lit "tt1") ()).ret =
      some ⟨lit "bad response: 204"⟩ ∧
    ((New (lit "k") (respond 204 (lit "garbage"))).Remove sampleXML Movies (lit "tt1") ()).ret =
      (none, some ⟨lit "bad response: 204"⟩) ∧
    (⟨lit "bad response: 204"⟩ : GoError) ≠ ⟨lit "EOF"⟩ :=
  ⟨rfl, rfl, by decide, by decide, rfl, by decide⟩

/-- C5 (amended) at a transport answering 200 with the body `garbage`: all three
methods return the decode error `EOF` and no data. -/
theorem decode_failure_witness :
    ((New (lit "k") (respond 200 (lit "garbage"))).List sampleXML Movies ()).ret =
      ([], some ⟨lit "EOF"⟩) ∧
    ((New (lit "k") (respond 200 (lit "garbage"))).Add sampleXML Movies (lit "tt1") ()).ret =
      some ⟨lit "EOF"⟩ ∧
    ((New (lit "k") (respond 200 (lit "garbage"))).Remove sampleXML Movies (lit "tt1") ()).ret =
      (none, some ⟨lit "EOF"⟩) :=
  ⟨(decode_failure sampleXML (New (lit "k") (respond 200 (lit "garbage"))) Movies
      (lit "tt1") ()).1 () { StatusCode := 200, Body := Except.ok (lit "garbage") }
      (lit "garbage") ⟨lit "EOF"⟩ rfl rfl rfl rfl,
    (decode_failure sampleXML (New (lit "k") (respond 200 (lit "garbage"))) Movies
      (lit "tt1") ()).2.1 () { StatusCode := 200, Body := Except.ok (lit "garbage") }
      (lit "garbage") ⟨lit "EOF"⟩ rfl rfl rfl rfl,
    (decode_failure sampleXML (New (lit "k") (respond 200 (lit "garbage"))) Movies
      (lit "tt1") ()).2.2 () { StatusCode := 200, Body := Except.ok (lit "garbage") }
      (lit "garbage") ⟨lit "EOF"⟩ rfl rfl rfl rfl⟩

/-- C6 at an api key and an identifier full of reserved characters. -/
theorem buildURL_four_parameters_witness :
    ∃ q ps,
      (New (lit "k&y=1") (respond 200 [])).buildURL (lit "add") Movies (lit "a&b=c%d+e f/?") =
        lit "https://api.dognzb.cr/watchlist?" ++ q ∧
      parseQuery q = some ps ∧
      ps.Perm [(lit "t", lit "add"), (lit "o", lit "json"), (lit "apikey", lit "k&y=1"),
        (lit "movieid", lit "a&b=c%d+e f/?")] ∧
      (ps.map Prod.fst).Nodup :=
  buildURL_four_parameters (New (lit "k&y=1") (respond 200 [])) (lit "add") Movies
    (lit "a&b=c%d+e f/?") (by decide) (by decide) (by decide)

/-- C7 as stated fails: the URL that `List(Movies)` requests names the movie
identifier parameter, with an empty value. -/
theorem List_url_names_movieid :
    ((New (lit "k") (recording (respond 200 (lit "items")))).List sampleXML Movies ((), [])).net.2 =
      [lit "https://api.dognzb.cr/watchlist?apikey=k&movieid=&o=json&t=list"] ∧
    parseQuery (lit "apikey=k&movieid=&o=json&t=list") =
      some [(lit "apikey", lit "k"), (lit "movieid", []), (lit "o", lit "json"),
        (lit "t", lit "list")] ∧
    Movies.name <:+: lit "https://api.dognzb.cr/watchlist?apikey=k&movieid=&o=json&t=list" :=
  ⟨by decide, by decide, by decide⟩

/-- C7 (amended) at the TV kind: the one URL requested carries `showid` with an
empty value next to `t=list`, `o=json` and the api key. -/
theorem List_url_carries_identifier_witness :
    ∃ q ps,
      ((New (lit "k") (recording (respond 200 (lit "items")))).List sampleXML TV ((), [])).net.2 =
        [] ++ [lit "https://api.dognzb.cr/watchlist?" ++ q] ∧
      parseQuery q = some ps ∧ (lit "showid", []) ∈ ps ∧
      ps.Perm [(lit "t", lit "list"), (lit "o", lit "json"), (lit "apikey", lit "k"),
        (lit "showid", [])] :=
  (List_url_carries_identifier sampleXML (respond 200 (lit "items")) (lit "k") TV () []).1.imp
    (fun _ hq => hq.imp
      (fun _ h => ⟨h.1, h.2.1, h.2.2.1, h.2.2.2 (by decide) (by decide) (by decide)⟩))

/-- C8 at a transport answering 200 with the body `ack`: `Add` returns nil and
`Remove` returns the decoded acknowledgment. -/
theorem Add_Remove_success_witness :
    ((New (lit "k") (respond 200 (lit "ack"))).Add sampleXML TV (lit "42") ()).ret = none ∧
    ((New (lit "k") (respond 200 (lit "ack"))).Remove sampleXML TV (lit "42") ()).ret =
      (some ⟨[], [], 7⟩, none) :=
  ⟨(Add_Remove_success sampleXML (New (lit "k") (respond 200 (lit "ack"))) TV (lit "42")
      ()).1 () { StatusCode := 200, Body := Except.ok (lit "ack") } (lit "ack") ⟨[], [], 7⟩
      rfl rfl rfl rfl rfl,
    (Add_Remove_success sampleXML (New (lit "k") (respond 200 (lit "ack"))) TV (lit "42")
      ()).2 () { StatusCode := 200, Body := Except.ok (lit "ack") } (lit "ack") ⟨[], [], 7⟩
      rfl rfl rfl rfl rfl⟩

/-- C10 at the command `list` with no flag value and `DOGNZB_API` set: no error, and
the flag value becomes the value of the variable. -/
theorem CheckAPI_spec_witness :
    (CheckAPI (lit "list") [] (lit "secret")).2 = lit "secret" ∧
    CheckAPI (lit "help") [] [] = (none, []) :=
  ⟨(CheckAPI_spec (lit "list") [] (lit "secret")).2.2 (by decide),
    (CheckAPI_spec (lit "help") [] []).2.1 (by decide)⟩

end Dogwatch
